import Mathlib

/-!
Shallow embedding of the `cursorvec` crate (files `src/cursor.rs`,
`src/container.rs`, `src/result.rs`) and proofs about it.

Rust `usize` arithmetic is modelled on `Nat` with explicit wrap-around
modulo `2 ^ 64` (release-mode two's-complement semantics) at every site
where the source performs `usize` arithmetic.  `OpResult` is modelled
under the crate's default (non-strict) feature, i.e. as `Bool`.
`Vec<T>` is modelled as `List T`; `&T` results are carried by value.
-/

set_option autoImplicit false

namespace Cursorvec

/-- Number of values of the 64-bit `usize` type; `usize` arithmetic wraps modulo this. -/
def USIZE : Nat := 2 ^ 64

/-- Release-mode `usize` subtraction `a - b` (wrap-around), for `b ≤ USIZE`. -/
def usizeSub (a b : Nat) : Nat := (a + (USIZE - b)) % USIZE

/-- `OpResult` under the default (non-strict) feature: a plain boolean (`src/result.rs`). -/
abbrev OpResult := Bool

namespace result

/-- `result::ok()` -/
def ok : OpResult := true

/-- `result::error(err)` (the message is dropped in the non-strict build). -/
def error (_err : String) : OpResult := false

/-- `result::is_true` -/
def is_true (r : OpResult) : Bool := r

end result

/-- `Cursor` (`src/cursor.rs`): capacity, rotation flag and current index. -/
structure Cursor where
  capacity : Nat
  rotation : Bool
  index : Nat
  deriving Repr, DecidableEq

namespace Cursor

/-- `Cursor::new` -/
def new (capacity : Nat) : Cursor :=
  { capacity := capacity, rotation := false, index := 0 }

/-- `Cursor::set_rotation` -/
def set_rotation (c : Cursor) (rotation : Bool) : Cursor :=
  { c with rotation := rotation }

/-- `Cursor::get_value` -/
def get_value (c : Cursor) : Nat := c.index

/-- `Cursor::set_value` -/
def set_value (c : Cursor) (value : Nat) : OpResult × Cursor :=
  if value > c.capacity then
    (result.error "Cursor out of range", c)
  else
    (result.ok, { c with index := value })

/-- `Cursor::set_capacity`: assigns the capacity, then, whenever
`index >= capacity`, clamps the index with the `usize` subtraction
`capacity - 1` — which wraps around when `capacity == 0`. -/
def set_capacity (c : Cursor) (capacity : Nat) : Cursor :=
  let c1 : Cursor := { c with capacity := capacity }
  if c1.index ≥ c1.capacity then { c1 with index := usizeSub c1.capacity 1 } else c1

/-- `Cursor::increase` -/
def increase (c : Cursor) : OpResult × Cursor :=
  if c.capacity = 0 then (result.error "Empty container", c)
  else if c.index = usizeSub c.capacity 1 then
    (if c.rotation then (result.ok, { c with index := 0 })
     else (result.error "Cursor out of range", c))
  else (result.ok, { c with index := (c.index + 1) % USIZE })

/-- `Cursor::decrease` -/
def decrease (c : Cursor) : OpResult × Cursor :=
  if c.capacity = 0 then (result.error "Empty container", c)
  else if c.index = 0 then
    (if c.rotation then (result.ok, { c with index := usizeSub c.capacity 1 })
     else (result.error "Cursor out of range", c))
  else (result.ok, { c with index := usizeSub c.index 1 })

end Cursor

/-- `CursorState` (`src/cursor.rs`); `Valid` carries the referenced element by value. -/
inductive CursorState (T : Type) where
  | MinOut
  | EmptyContainer
  | Valid (val : T)
  | OutOfRange
  | MaxOut
  deriving Repr, DecidableEq

/-- `CursorState::value` -/
def CursorState.value {T : Type} : CursorState T → Option T
  | .Valid v => some v
  | _ => none

/-- `CursorVec` (`src/container.rs`): backing vector plus exclusively-owned cursor. -/
structure CursorVec (T : Type) where
  vector : List T
  cursor : Cursor
  deriving Repr, DecidableEq

namespace CursorVec

/-- `CursorVec::new` -/
def new (T : Type) : CursorVec T :=
  { vector := [], cursor := Cursor.new 0 }

/-- `CursorVec::with_container` -/
def with_container {T : Type} (s : CursorVec T) (vector : List T) : CursorVec T :=
  let s1 : CursorVec T := { s with vector := vector }
  { s1 with cursor := s1.cursor.set_capacity s1.vector.length }

/-- `CursorVec::rotatable` -/
def rotatable {T : Type} (s : CursorVec T) (b : Bool) : CursorVec T :=
  { s with cursor := s.cursor.set_rotation b }

/-- `CursorVec::set_rotatable` -/
def set_rotatable {T : Type} (s : CursorVec T) (b : Bool) : CursorVec T :=
  { s with cursor := s.cursor.set_rotation b }

/-- `CursorVec::update_cursor` -/
def update_cursor {T : Type} (s : CursorVec T) : CursorVec T :=
  { s with cursor := s.cursor.set_capacity s.vector.length }

/-- `CursorVec::set_container` -/
def set_container {T : Type} (s : CursorVec T) (container : List T) : CursorVec T :=
  update_cursor { s with vector := container }

/-- `CursorVec::modify` (the closure is modelled as a pure function on the vector). -/
def modify {T : Type} (s : CursorVec T) (f : List T → List T) : CursorVec T :=
  update_cursor { s with vector := f s.vector }

/-- `CursorVec::get_cursor_value` -/
def get_cursor_value {T : Type} (s : CursorVec T) : Option T :=
  s.vector[s.cursor.get_value]?

/-- `CursorVec::is_empty_container` -/
def is_empty_container {T : Type} (s : CursorVec T) : Bool :=
  s.vector.isEmpty

/-- The `for _ in 0..amount` loop of the N-step forward variants: iterate
`Cursor::increase`, stopping at the first failing step (which, per
`Cursor::increase`, leaves the cursor unchanged); returns whether every
step succeeded, together with the final cursor. -/
def incLoop : Cursor → Nat → Bool × Cursor
  | c, 0 => (true, c)
  | c, n + 1 =>
    let rc := c.increase
    if result.is_true rc.1 then incLoop rc.2 n else (false, rc.2)

/-- The `for _ in 0..amount` loop of the N-step backward variants. -/
def decLoop : Cursor → Nat → Bool × Cursor
  | c, 0 => (true, c)
  | c, n + 1 =>
    let rc := c.decrease
    if result.is_true rc.1 then decLoop rc.2 n else (false, rc.2)

/-- The shared tail of `get_current` and the strict move operations
(`match self.get_cursor_value() { Some(v) => Valid(v), None => OutOfRange }`). -/
def readState {T : Type} (s1 : CursorVec T) : CursorState T :=
  match s1.get_cursor_value with
  | some v => CursorState.Valid v
  | none => CursorState.OutOfRange

/-- `CursorVec::move_next_and_get` -/
def move_next_and_get {T : Type} (s : CursorVec T) : CursorState T × CursorVec T :=
  if s.is_empty_container then (.EmptyContainer, s)
  else
    let rc := s.cursor.increase
    let s1 : CursorVec T := { s with cursor := rc.2 }
    if ¬ result.is_true rc.1 then (.MaxOut, s1)
    else (readState s1, s1)

/-- `CursorVec::move_next_and_get_always` -/
def move_next_and_get_always {T : Type} (s : CursorVec T) : Option T × CursorVec T :=
  if s.is_empty_container then (none, s)
  else
    let rc := s.cursor.increase
    let s1 : CursorVec T := { s with cursor := rc.2 }
    (s1.get_cursor_value, s1)

/-- `CursorVec::move_next_nth_and_get` -/
def move_next_nth_and_get {T : Type} (s : CursorVec T) (amount : Nat) :
    CursorState T × CursorVec T :=
  if s.is_empty_container then (.EmptyContainer, s)
  else
    let bc := incLoop s.cursor amount
    let s1 : CursorVec T := { s with cursor := bc.2 }
    if ¬ bc.1 then (.MaxOut, s1)
    else (readState s1, s1)

/-- `CursorVec::move_next_nth_and_get_always`.  The source loop early-returns
`self.get_cursor_value()` on the first failed step; since `incLoop` stops at
that step and a failed `Cursor::increase` leaves the cursor unchanged, reading
the value at `incLoop`'s final cursor is that same early-returned value. -/
def move_next_nth_and_get_always {T : Type} (s : CursorVec T) (amount : Nat) :
    Option T × CursorVec T :=
  if s.is_empty_container then (none, s)
  else
    let bc := incLoop s.cursor amount
    let s1 : CursorVec T := { s with cursor := bc.2 }
    (s1.get_cursor_value, s1)

/-- `CursorVec::move_prev_and_get` -/
def move_prev_and_get {T : Type} (s : CursorVec T) : CursorState T × CursorVec T :=
  if s.is_empty_container then (.EmptyContainer, s)
  else
    let rc := s.cursor.decrease
    let s1 : CursorVec T := { s with cursor := rc.2 }
    if ¬ result.is_true rc.1 then (.MinOut, s1)
    else (readState s1, s1)

/-- `CursorVec::move_prev_and_get_always` -/
def move_prev_and_get_always {T : Type} (s : CursorVec T) : Option T × CursorVec T :=
  if s.is_empty_container then (none, s)
  else
    let rc := s.cursor.decrease
    let s1 : CursorVec T := { s with cursor := rc.2 }
    (s1.get_cursor_value, s1)

/-- `CursorVec::move_prev_nth_and_get` -/
def move_prev_nth_and_get {T : Type} (s : CursorVec T) (amount : Nat) :
    CursorState T × CursorVec T :=
  if s.is_empty_container then (.EmptyContainer, s)
  else
    let bc := decLoop s.cursor amount
    let s1 : CursorVec T := { s with cursor := bc.2 }
    if ¬ bc.1 then (.MinOut, s1)
    else (readState s1, s1)

/-- `CursorVec::move_prev_nth_and_get_always` (see the note on the forward variant). -/
def move_prev_nth_and_get_always {T : Type} (s : CursorVec T) (amount : Nat) :
    Option T × CursorVec T :=
  if s.is_empty_container then (none, s)
  else
    let bc := decLoop s.cursor amount
    let s1 : CursorVec T := { s with cursor := bc.2 }
    (s1.get_cursor_value, s1)

/-- `CursorVec::get_current` -/
def get_current {T : Type} (s : CursorVec T) : CursorState T :=
  if s.is_empty_container then .EmptyContainer
  else readState s

/-- `CursorVec::move_next` -/
def move_next {T : Type} (s : CursorVec T) : OpResult × CursorVec T :=
  if s.is_empty_container then (result.error "empty container", s)
  else
    let rc := s.cursor.increase
    (rc.1, { s with cursor := rc.2 })

/-- `CursorVec::move_prev` -/
def move_prev {T : Type} (s : CursorVec T) : OpResult × CursorVec T :=
  if s.is_empty_container then (result.error "empty container", s)
  else
    let rc := s.cursor.decrease
    (rc.1, { s with cursor := rc.2 })

/-- `CursorVec::get_cursor` -/
def get_cursor {T : Type} (s : CursorVec T) : Option Nat :=
  if s.vector.isEmpty then none else some s.cursor.get_value

/-- `CursorVec::set_cursor` -/
def set_cursor {T : Type} (s : CursorVec T) (cursor : Nat) : OpResult × CursorVec T :=
  let rc := s.cursor.set_value cursor
  (rc.1, { s with cursor := rc.2 })

end CursorVec

/-- Specification-side iterator: the cursor after `n` consecutive
`Cursor::increase` steps (a failed step leaves the cursor unchanged). -/
def incSteps : Cursor → Nat → Cursor
  | c, 0 => c
  | c, n + 1 => incSteps (c.increase).2 n

/-- Specification-side success tracker: whether the first `n` consecutive
`Cursor::increase` steps all succeed. -/
def incOkN : Cursor → Nat → Bool
  | _, 0 => true
  | c, n + 1 => (c.increase).1 && incOkN (c.increase).2 n

/-- Specification-side iterator for `Cursor::decrease` steps. -/
def decSteps : Cursor → Nat → Cursor
  | c, 0 => c
  | c, n + 1 => decSteps (c.decrease).2 n

/-- Specification-side success tracker for `Cursor::decrease` steps. -/
def decOkN : Cursor → Nat → Bool
  | _, 0 => true
  | c, n + 1 => (c.decrease).1 && decOkN (c.decrease).2 n

/-- Frame predicate: `t` has the same backing vector, cursor capacity and
rotation flag as `s` (only the cursor index may differ). -/
def SameFrame {T : Type} (s t : CursorVec T) : Prop :=
  t.vector = s.vector ∧ t.cursor.capacity = s.cursor.capacity ∧
    t.cursor.rotation = s.cursor.rotation

/-- States reachable from `CursorVec::new` through the container's own API
(construction, builders, container replacement, `modify`, `update_cursor`,
every move operation, and `set_cursor` restricted by the parameter `P`).
The side condition `length < USIZE` on container-setting steps reflects that a
Rust `Vec` never holds more than `isize::MAX < 2^64` elements.  Direct
`Deref`-based mutation of the vector bypasses the API and is not a step. -/
inductive ReachableVia {T : Type} (P : CursorVec T → Nat → Prop) : CursorVec T → Prop where
  | new : ReachableVia P (CursorVec.new T)
  | with_container {s : CursorVec T} {v : List T} :
      ReachableVia P s → v.length < USIZE → ReachableVia P (s.with_container v)
  | rotatable {s : CursorVec T} {b : Bool} :
      ReachableVia P s → ReachableVia P (s.rotatable b)
  | set_rotatable {s : CursorVec T} {b : Bool} :
      ReachableVia P s → ReachableVia P (s.set_rotatable b)
  | set_container {s : CursorVec T} {v : List T} :
      ReachableVia P s → v.length < USIZE → ReachableVia P (s.set_container v)
  | modify {s : CursorVec T} {f : List T → List T} :
      ReachableVia P s → (f s.vector).length < USIZE → ReachableVia P (s.modify f)
  | update_cursor {s : CursorVec T} :
      ReachableVia P s → ReachableVia P s.update_cursor
  | move_next_and_get {s : CursorVec T} :
      ReachableVia P s → ReachableVia P (CursorVec.move_next_and_get s).2
  | move_next_and_get_always {s : CursorVec T} :
      ReachableVia P s → ReachableVia P (CursorVec.move_next_and_get_always s).2
  | move_next_nth_and_get {s : CursorVec T} {n : Nat} :
      ReachableVia P s → ReachableVia P (CursorVec.move_next_nth_and_get s n).2
  | move_next_nth_and_get_always {s : CursorVec T} {n : Nat} :
      ReachableVia P s → ReachableVia P (CursorVec.move_next_nth_and_get_always s n).2
  | move_prev_and_get {s : CursorVec T} :
      ReachableVia P s → ReachableVia P (CursorVec.move_prev_and_get s).2
  | move_prev_and_get_always {s : CursorVec T} :
      ReachableVia P s → ReachableVia P (CursorVec.move_prev_and_get_always s).2
  | move_prev_nth_and_get {s : CursorVec T} {n : Nat} :
      ReachableVia P s → ReachableVia P (CursorVec.move_prev_nth_and_get s n).2
  | move_prev_nth_and_get_always {s : CursorVec T} {n : Nat} :
      ReachableVia P s → ReachableVia P (CursorVec.move_prev_nth_and_get_always s n).2
  | move_next {s : CursorVec T} :
      ReachableVia P s → ReachableVia P (CursorVec.move_next s).2
  | move_prev {s : CursorVec T} :
      ReachableVia P s → ReachableVia P (CursorVec.move_prev s).2
  | set_cursor {s : CursorVec T} {k : Nat} :
      ReachableVia P s → P s k → ReachableVia P (CursorVec.set_cursor s k).2

/-- States reachable through the container's own API, `set_cursor` unrestricted. -/
def Reachable {T : Type} : CursorVec T → Prop :=
  ReachableVia (fun _ _ => True)

/-- States reachable through the container's own API where `set_cursor` is never
invoked with an argument equal to the current vector length (the one argument
that `Cursor::set_value`'s inclusive bound accepts although it is out of range). -/
def ReachableStrictSet {T : Type} : CursorVec T → Prop :=
  ReachableVia (fun s k => k ≠ s.vector.length)

/-- The synchronised-cursor invariant: the cursor's capacity equals the vector
length, the length is a representable `usize` value, and on a non-empty vector
the index is a valid subscript.  It holds after construction and is preserved
by every API operation except a `set_cursor` call at exactly the vector length
(the boundary value that `Cursor::set_value`'s inclusive bound accepts). -/
def Synced {T : Type} (s : CursorVec T) : Prop :=
  s.cursor.capacity = s.vector.length ∧ s.vector.length < USIZE ∧
    (s.vector ≠ [] → s.cursor.index < s.vector.length)

open CursorVec

theorem USIZE_eq : USIZE = 18446744073709551616 := by norm_num [USIZE]

theorem usizeSub_one {n : Nat} (h1 : 1 ≤ n) (h2 : n ≤ USIZE) : usizeSub n 1 = n - 1 := by
  have hU := USIZE_eq
  unfold usizeSub
  have h3 : n + (USIZE - 1) = (n - 1) + USIZE := by omega
  rw [h3, Nat.add_mod_right, Nat.mod_eq_of_lt (by omega)]

theorem usizeSub_zero_one : usizeSub 0 1 = USIZE - 1 := by
  have hU := USIZE_eq
  unfold usizeSub
  rw [Nat.zero_add, Nat.mod_eq_of_lt (by omega)]

/-- C3: `Cursor::set_value(newIndex)` succeeds and assigns the index if and only
if `newIndex <= capacity` (inclusive); when it fails, the cursor's index,
capacity and rotation flag are unchanged. -/
theorem set_value_correct (c : Cursor) (value : Nat) :
    ((c.set_value value).1 = result.ok ↔ value ≤ c.capacity) ∧
    (value ≤ c.capacity → (c.set_value value).2 = { c with index := value }) ∧
    (c.capacity < value →
      (c.set_value value).1 = result.error "Cursor out of range" ∧
        (c.set_value value).2 = c) := by
  by_cases h : value > c.capacity
  · have e1 : c.set_value value = (result.error "Cursor out of range", c) := by
      unfold Cursor.set_value; simp [h]
    rw [e1]
    refine ⟨?_, fun hle => absurd hle (by omega), fun _ => ⟨rfl, rfl⟩⟩
    simp [result.ok, result.error]
    omega
  · have e1 : c.set_value value = (result.ok, { c with index := value }) := by
      unfold Cursor.set_value; simp [h]
    rw [e1]
    refine ⟨?_, fun _ => rfl, fun hlt => absurd hlt (by omega)⟩
    simp
    omega

/-- Witness for C3 at a concrete cursor: index 2 is accepted by capacity 3,
index 5 is rejected leaving the cursor intact. -/
theorem set_value_correct_witness :
    (Cursor.set_value ⟨3, false, 0⟩ 2).1 = result.ok ∧
    (Cursor.set_value ⟨3, false, 0⟩ 2).2 = ⟨3, false, 2⟩ ∧
    (Cursor.set_value ⟨3, false, 0⟩ 5).2 = ⟨3, false, 0⟩ := by
  refine ⟨(set_value_correct ⟨3, false, 0⟩ 2).1.mpr (by decide),
    (set_value_correct ⟨3, false, 0⟩ 2).2.1 (by decide),
    ((set_value_correct ⟨3, false, 0⟩ 5).2.2 (by decide)).2⟩

/-- C5 (counterexample): at the representable cursor state
`capacity = 5, rotation = false, index = 2^64 - 1` the capacity is non-zero and
the index is not at `capacity - 1`, so the claim asserts that `increase`
increments the index by one; instead the source's unguarded `self.index += 1`
overflows — the operation succeeds but the index wraps to 0 rather than
becoming `index + 1` (a debug build panics). -/
theorem increase_overflow_counterexample :
    (5 : Nat) ≠ 0 ∧
    USIZE - 1 ≠ 5 - 1 ∧
    (Cursor.increase ⟨5, false, USIZE - 1⟩).1 = result.ok ∧
    (Cursor.increase ⟨5, false, USIZE - 1⟩).2.index = 0 ∧
    (USIZE - 1) + 1 ≠ 0 := by
  refine ⟨by decide, by decide, by decide, by decide, by decide⟩

/-- C5 (amended): `Cursor::increase` fails with no state change when
`capacity == 0`; at `index == capacity - 1` it wraps to 0 and succeeds when
rotation is on and otherwise fails with no state change; in all other cases,
provided the 64-bit increment does not overflow (`index + 1 < 2^64`), it
succeeds and increments the index by one.  (At `index = 2^64 - 1` the source's
unguarded increment instead succeeds with the index wrapped to 0 in a release
build — see the counterexample above.) -/
theorem increase_correct (c : Cursor) (hcap : c.capacity ≤ USIZE)
    (hidx : c.index + 1 < USIZE) :
    (c.capacity = 0 → c.increase = (result.error "Empty container", c)) ∧
    (c.capacity ≠ 0 → c.index = c.capacity - 1 → c.rotation = true →
      c.increase = (result.ok, { c with index := 0 })) ∧
    (c.capacity ≠ 0 → c.index = c.capacity - 1 → c.rotation = false →
      c.increase = (result.error "Cursor out of range", c)) ∧
    (c.capacity ≠ 0 → c.index ≠ c.capacity - 1 →
      c.increase = (result.ok, { c with index := c.index + 1 })) := by
  unfold Cursor.increase
  refine ⟨fun h0 => by simp [h0], fun h0 hi hr => ?_, fun h0 hi hr => ?_, fun h0 hi => ?_⟩
  · rw [usizeSub_one (by omega) hcap] at *
    simp [h0, hi, hr]
  · rw [usizeSub_one (by omega) hcap] at *
    simp [h0, hi, hr]
  · rw [usizeSub_one (by omega) hcap] at *
    simp [h0, hi, Nat.mod_eq_of_lt hidx]

/-- Witness for C5 at a concrete cursor: capacity 5, index 2 increments to 3. -/
theorem increase_correct_witness :
    Cursor.increase ⟨5, false, 2⟩ = (result.ok, ⟨5, false, 3⟩) := by
  have h := increase_correct ⟨5, false, 2⟩ (by show (5 : Nat) ≤ USIZE; rw [USIZE_eq]; omega)
    (by show (2 : Nat) + 1 < USIZE; rw [USIZE_eq]; omega)
  exact h.2.2.2 (by decide) (by decide)

/-- C6: `Cursor::decrease` fails with no state change when `capacity == 0`;
at `index == 0` it wraps to `capacity - 1` and succeeds when rotation is on and
otherwise fails with no state change; in all other cases it decrements the
index by one and succeeds.  The hypotheses say the fields are `usize` values. -/
theorem decrease_correct (c : Cursor) (hcap : c.capacity ≤ USIZE)
    (hidx : c.index ≤ USIZE) :
    (c.capacity = 0 → c.decrease = (result.error "Empty container", c)) ∧
    (c.capacity ≠ 0 → c.index = 0 → c.rotation = true →
      c.decrease = (result.ok, { c with index := c.capacity - 1 })) ∧
    (c.capacity ≠ 0 → c.index = 0 → c.rotation = false →
      c.decrease = (result.error "Cursor out of range", c)) ∧
    (c.capacity ≠ 0 → c.index ≠ 0 →
      c.decrease = (result.ok, { c with index := c.index - 1 })) := by
  unfold Cursor.decrease
  refine ⟨fun h0 => by simp [h0], fun h0 hi hr => ?_, fun h0 hi hr => ?_, fun h0 hi => ?_⟩
  · rw [usizeSub_one (by omega) hcap]
    simp [h0, hi, hr]
  · simp [h0, hi, hr]
  · rw [usizeSub_one (by omega) hidx]
    simp [h0, hi]

/-- Witness for C6 at a concrete cursor: capacity 5, rotation on, index 0 wraps to 4. -/
theorem decrease_correct_witness :
    Cursor.decrease ⟨5, true, 0⟩ = (result.ok, ⟨5, true, 4⟩) := by
  have h := decrease_correct ⟨5, true, 0⟩ (by show (5 : Nat) ≤ USIZE; rw [USIZE_eq]; omega)
    (by show (0 : Nat) ≤ USIZE; rw [USIZE_eq]; omega)
  exact h.2.1 (by decide) (by decide) (by decide)

theorem set_capacity_idem (c : Cursor) (n : Nat) :
    (c.set_capacity n).set_capacity n = c.set_capacity n := by
  unfold Cursor.set_capacity
  by_cases h : c.index ≥ n
  · simp [h]
  · simp [h]

/-- C9: `CursorVec::update_cursor` is idempotent — calling it twice in a row
yields exactly the same cursor capacity and index as calling it once. -/
theorem update_cursor_idem {T : Type} (s : CursorVec T) :
    s.update_cursor.update_cursor = s.update_cursor := by
  unfold CursorVec.update_cursor
  simp [set_capacity_idem]

/-- C1 (code bug): `Cursor::set_capacity(0)` does not leave the index at 0 —
the clamp `capacity - 1` is computed with `capacity == 0` and underflows,
wrapping the index to `2^64 - 1` (a debug build of the crate panics instead). -/
theorem set_capacity_zero_underflow :
    (Cursor.set_capacity (Cursor.new 3) 0).index = USIZE - 1 ∧
    (Cursor.set_capacity (Cursor.new 3) 0).index ≠ 0 := by
  have h : (Cursor.set_capacity (Cursor.new 3) 0).index = usizeSub 0 1 := rfl
  have hU := USIZE_eq
  rw [h, usizeSub_zero_one]
  omega

theorem increase_frame (c : Cursor) :
    (c.increase).2.capacity = c.capacity ∧ (c.increase).2.rotation = c.rotation := by
  obtain ⟨cap, rot, idx⟩ := c
  unfold Cursor.increase
  by_cases h0 : cap = 0
  · rw [if_pos h0]; exact ⟨rfl, rfl⟩
  · rw [if_neg h0]
    by_cases h1 : idx = usizeSub cap 1
    · rw [if_pos h1]
      by_cases h2 : rot = true
      · rw [if_pos h2]; exact ⟨rfl, rfl⟩
      · rw [if_neg h2]; exact ⟨rfl, rfl⟩
    · rw [if_neg h1]; exact ⟨rfl, rfl⟩

theorem decrease_frame (c : Cursor) :
    (c.decrease).2.capacity = c.capacity ∧ (c.decrease).2.rotation = c.rotation := by
  obtain ⟨cap, rot, idx⟩ := c
  unfold Cursor.decrease
  by_cases h0 : cap = 0
  · rw [if_pos h0]; exact ⟨rfl, rfl⟩
  · rw [if_neg h0]
    by_cases h1 : idx = 0
    · rw [if_pos h1]
      by_cases h2 : rot = true
      · rw [if_pos h2]; exact ⟨rfl, rfl⟩
      · rw [if_neg h2]; exact ⟨rfl, rfl⟩
    · rw [if_neg h1]; exact ⟨rfl, rfl⟩

theorem increase_fail_eq (c : Cursor) (h : (c.increase).1 = false) : (c.increase).2 = c := by
  obtain ⟨cap, rot, idx⟩ := c
  unfold Cursor.increase at h ⊢
  by_cases h0 : cap = 0
  · rw [if_pos h0]
  · rw [if_neg h0] at h ⊢
    by_cases h1 : idx = usizeSub cap 1
    · rw [if_pos h1] at h ⊢
      by_cases h2 : rot = true
      · rw [if_pos h2] at h; exact Bool.noConfusion h
      · rw [if_neg h2]
    · rw [if_neg h1] at h; exact Bool.noConfusion h

theorem decrease_fail_eq (c : Cursor) (h : (c.decrease).1 = false) : (c.decrease).2 = c := by
  obtain ⟨cap, rot, idx⟩ := c
  unfold Cursor.decrease at h ⊢
  by_cases h0 : cap = 0
  · rw [if_pos h0]
  · rw [if_neg h0] at h ⊢
    by_cases h1 : idx = 0
    · rw [if_pos h1] at h ⊢
      by_cases h2 : rot = true
      · rw [if_pos h2] at h; exact Bool.noConfusion h
      · rw [if_neg h2]
    · rw [if_neg h1] at h; exact Bool.noConfusion h

theorem incLoop_succ (c : Cursor) (n : Nat) :
    incLoop c (n + 1) =
      if (c.increase).1 = true then incLoop (c.increase).2 n else (false, (c.increase).2) := by
  rfl

theorem decLoop_succ (c : Cursor) (n : Nat) :
    decLoop c (n + 1) =
      if (c.decrease).1 = true then decLoop (c.decrease).2 n else (false, (c.decrease).2) := by
  rfl

theorem incLoop_frame (n : Nat) : ∀ c : Cursor,
    (incLoop c n).2.capacity = c.capacity ∧ (incLoop c n).2.rotation = c.rotation := by
  induction n with
  | zero => exact fun c => ⟨rfl, rfl⟩
  | succ n ih =>
    intro c
    have hf := increase_frame c
    rw [incLoop_succ]
    cases hb : (c.increase).1 with
    | false =>
      rw [if_neg Bool.false_ne_true]
      exact hf
    | true =>
      rw [if_pos rfl]
      have ih2 := ih (c.increase).2
      exact ⟨ih2.1.trans hf.1, ih2.2.trans hf.2⟩

theorem decLoop_frame (n : Nat) : ∀ c : Cursor,
    (decLoop c n).2.capacity = c.capacity ∧ (decLoop c n).2.rotation = c.rotation := by
  induction n with
  | zero => exact fun c => ⟨rfl, rfl⟩
  | succ n ih =>
    intro c
    have hf := decrease_frame c
    rw [decLoop_succ]
    cases hb : (c.decrease).1 with
    | false =>
      rw [if_neg Bool.false_ne_true]
      exact hf
    | true =>
      rw [if_pos rfl]
      have ih2 := ih (c.decrease).2
      exact ⟨ih2.1.trans hf.1, ih2.2.trans hf.2⟩

theorem frame_mk {T : Type} (s : CursorVec T) (c' : Cursor)
    (h1 : c'.capacity = s.cursor.capacity) (h2 : c'.rotation = s.cursor.rotation) :
    SameFrame s { s with cursor := c' } :=
  ⟨rfl, h1, h2⟩

theorem frame_move_next {T : Type} (s : CursorVec T) : SameFrame s (s.move_next).2 := by
  unfold CursorVec.move_next
  split
  · exact ⟨rfl, rfl, rfl⟩
  · exact frame_mk s _ (increase_frame s.cursor).1 (increase_frame s.cursor).2

theorem frame_move_prev {T : Type} (s : CursorVec T) : SameFrame s (s.move_prev).2 := by
  unfold CursorVec.move_prev
  split
  · exact ⟨rfl, rfl, rfl⟩
  · exact frame_mk s _ (decrease_frame s.cursor).1 (decrease_frame s.cursor).2

theorem frame_move_next_and_get {T : Type} (s : CursorVec T) :
    SameFrame s (s.move_next_and_get).2 := by
  unfold CursorVec.move_next_and_get
  dsimp only
  split
  · exact ⟨rfl, rfl, rfl⟩
  · split <;> exact frame_mk s _ (increase_frame s.cursor).1 (increase_frame s.cursor).2

theorem frame_move_prev_and_get {T : Type} (s : CursorVec T) :
    SameFrame s (s.move_prev_and_get).2 := by
  unfold CursorVec.move_prev_and_get
  dsimp only
  split
  · exact ⟨rfl, rfl, rfl⟩
  · split <;> exact frame_mk s _ (decrease_frame s.cursor).1 (decrease_frame s.cursor).2

theorem frame_move_next_and_get_always {T : Type} (s : CursorVec T) :
    SameFrame s (s.move_next_and_get_always).2 := by
  unfold CursorVec.move_next_and_get_always
  split
  · exact ⟨rfl, rfl, rfl⟩
  · exact frame_mk s _ (increase_frame s.cursor).1 (increase_frame s.cursor).2

theorem frame_move_prev_and_get_always {T : Type} (s : CursorVec T) :
    SameFrame s (s.move_prev_and_get_always).2 := by
  unfold CursorVec.move_prev_and_get_always
  split
  · exact ⟨rfl, rfl, rfl⟩
  · exact frame_mk s _ (decrease_frame s.cursor).1 (decrease_frame s.cursor).2

theorem frame_move_next_nth_and_get {T : Type} (s : CursorVec T) (n : Nat) :
    SameFrame s (s.move_next_nth_and_get n).2 := by
  unfold CursorVec.move_next_nth_and_get
  dsimp only
  split
  · exact ⟨rfl, rfl, rfl⟩
  · split <;> exact frame_mk s _ (incLoop_frame n s.cursor).1 (incLoop_frame n s.cursor).2

theorem frame_move_prev_nth_and_get {T : Type} (s : CursorVec T) (n : Nat) :
    SameFrame s (s.move_prev_nth_and_get n).2 := by
  unfold CursorVec.move_prev_nth_and_get
  dsimp only
  split
  · exact ⟨rfl, rfl, rfl⟩
  · split <;> exact frame_mk s _ (decLoop_frame n s.cursor).1 (decLoop_frame n s.cursor).2

theorem frame_move_next_nth_and_get_always {T : Type} (s : CursorVec T) (n : Nat) :
    SameFrame s (s.move_next_nth_and_get_always n).2 := by
  unfold CursorVec.move_next_nth_and_get_always
  split
  · exact ⟨rfl, rfl, rfl⟩
  · exact frame_mk s _ (incLoop_frame n s.cursor).1 (incLoop_frame n s.cursor).2

theorem frame_move_prev_nth_and_get_always {T : Type} (s : CursorVec T) (n : Nat) :
    SameFrame s (s.move_prev_nth_and_get_always n).2 := by
  unfold CursorVec.move_prev_nth_and_get_always
  split
  · exact ⟨rfl, rfl, rfl⟩
  · exact frame_mk s _ (decLoop_frame n s.cursor).1 (decLoop_frame n s.cursor).2

theorem frame_set_cursor {T : Type} (s : CursorVec T) (k : Nat) :
    SameFrame s (s.set_cursor k).2 := by
  unfold CursorVec.set_cursor Cursor.set_value
  split
  · exact ⟨rfl, rfl, rfl⟩
  · exact ⟨rfl, rfl, rfl⟩

/-- C10: every cursor movement and assignment operation (`move_next`,
`move_prev`, their strict, N-step and always variants, and `set_cursor`)
leaves the backing vector, the cursor's capacity and the rotation flag
unchanged; only the cursor's index may change. -/
theorem moves_preserve_frame {T : Type} (s : CursorVec T) (n k : Nat) :
    SameFrame s (s.move_next).2 ∧
    SameFrame s (s.move_prev).2 ∧
    SameFrame s (s.move_next_and_get).2 ∧
    SameFrame s (s.move_prev_and_get).2 ∧
    SameFrame s (s.move_next_and_get_always).2 ∧
    SameFrame s (s.move_prev_and_get_always).2 ∧
    SameFrame s (s.move_next_nth_and_get n).2 ∧
    SameFrame s (s.move_prev_nth_and_get n).2 ∧
    SameFrame s (s.move_next_nth_and_get_always n).2 ∧
    SameFrame s (s.move_prev_nth_and_get_always n).2 ∧
    SameFrame s (s.set_cursor k).2 :=
  ⟨frame_move_next s, frame_move_prev s, frame_move_next_and_get s,
    frame_move_prev_and_get s, frame_move_next_and_get_always s,
    frame_move_prev_and_get_always s, frame_move_next_nth_and_get s n,
    frame_move_prev_nth_and_get s n, frame_move_next_nth_and_get_always s n,
    frame_move_prev_nth_and_get_always s n, frame_set_cursor s k⟩

theorem readState_eq_valid {T : Type} (s1 : CursorVec T) (v : T)
    (h : s1.get_cursor_value = some v) : readState s1 = CursorState.Valid v := by
  unfold readState
  rw [h]

theorem readState_eq_oor {T : Type} (s1 : CursorVec T)
    (h : s1.get_cursor_value = none) : readState s1 = CursorState.OutOfRange := by
  unfold readState
  rw [h]

theorem set_capacity_capacity (c : Cursor) (n : Nat) : (c.set_capacity n).capacity = n := by
  obtain ⟨cap, rot, idx⟩ := c
  unfold Cursor.set_capacity
  dsimp only
  split <;> rfl

theorem set_capacity_rotation (c : Cursor) (n : Nat) : (c.set_capacity n).rotation = c.rotation := by
  obtain ⟨cap, rot, idx⟩ := c
  unfold Cursor.set_capacity
  dsimp only
  split <;> rfl

theorem set_capacity_index_lt (c : Cursor) (n : Nat) (hn : n ≠ 0) (hU : n ≤ USIZE) :
    (c.set_capacity n).index < n := by
  obtain ⟨cap, rot, idx⟩ := c
  unfold Cursor.set_capacity
  dsimp only
  split
  · rw [usizeSub_one (by omega) hU]
    show n - 1 < n
    omega
  · show idx < n
    omega

/-- C4: after `set_container(S)` followed by `set_cursor(k)` with `0 ≤ k ≤ |S|`,
the cursor assignment succeeds, and `get_current()` returns `Valid` carrying
`S[k]` when `k < |S|`, and the defined non-`Valid` boundary state when
`k = |S|` (`EmptyContainer` for empty `S`, otherwise `OutOfRange`). -/
theorem set_then_get_roundtrip {T : Type} (s : CursorVec T) (S : List T) (k : Nat)
    (hk : k ≤ S.length) :
    ((s.set_container S).set_cursor k).1 = result.ok ∧
    (∀ h : k < S.length,
      get_current ((s.set_container S).set_cursor k).2 = CursorState.Valid (S.get ⟨k, h⟩)) ∧
    (k = S.length → S = [] →
      get_current ((s.set_container S).set_cursor k).2 = CursorState.EmptyContainer) ∧
    (k = S.length → S ≠ [] →
      get_current ((s.set_container S).set_cursor k).2 = CursorState.OutOfRange) := by
  have hcap : (s.set_container S).cursor.capacity = S.length :=
    set_capacity_capacity s.cursor S.length
  have hsc : (s.set_container S).set_cursor k =
      (result.ok, { s.set_container S with
        cursor := { (s.set_container S).cursor with index := k } }) := by
    unfold CursorVec.set_cursor Cursor.set_value
    dsimp only
    rw [if_neg (by rw [hcap]; omega)]
  refine ⟨by rw [hsc], ?_, ?_, ?_⟩
  · intro h
    rw [hsc]
    unfold CursorVec.get_current
    rw [if_neg ?hne]
    case hne =>
      show ¬((s.set_container S).vector.isEmpty = true)
      have hS : S ≠ [] := List.ne_nil_of_length_pos (by omega)
      show ¬(S.isEmpty = true)
      simpa using hS
    have hv : CursorVec.get_cursor_value
        { s.set_container S with
          cursor := { (s.set_container S).cursor with index := k } } =
        some (S.get ⟨k, h⟩) := by
      show S[k]? = some (S.get ⟨k, h⟩)
      rw [List.getElem?_eq_getElem h, List.get_eq_getElem]
    exact readState_eq_valid _ _ hv
  · intro hkS hS
    rw [hsc]
    unfold CursorVec.get_current
    rw [if_pos ?hemp]
    case hemp =>
      show (s.set_container S).vector.isEmpty = true
      show S.isEmpty = true
      rw [hS]
      rfl
  · intro hkS hS
    rw [hsc]
    unfold CursorVec.get_current
    rw [if_neg ?hne2]
    case hne2 =>
      show ¬((s.set_container S).vector.isEmpty = true)
      show ¬(S.isEmpty = true)
      simpa using hS
    have hv : CursorVec.get_cursor_value
        { s.set_container S with
          cursor := { (s.set_container S).cursor with index := k } } =
        (none : Option T) := by
      show S[k]? = none
      rw [List.getElem?_eq_none]
      omega
    exact readState_eq_oor _ hv

/-- Witness for C4 on the list `[10, 20]` with `k = 1` (valid slot) and
`k = 2` (the boundary index, yielding `OutOfRange`). -/
theorem set_then_get_roundtrip_witness :
    (((CursorVec.new Nat).set_container [10, 20]).set_cursor 1).1 = result.ok ∧
    get_current (((CursorVec.new Nat).set_container [10, 20]).set_cursor 1).2 =
      CursorState.Valid 20 ∧
    get_current (((CursorVec.new Nat).set_container [10, 20]).set_cursor 2).2 =
      CursorState.OutOfRange := by
  have h1 := set_then_get_roundtrip (CursorVec.new Nat) [10, 20] 1 (by decide)
  have h2 := set_then_get_roundtrip (CursorVec.new Nat) [10, 20] 2 (by decide)
  exact ⟨h1.1, h1.2.1 (by decide), h2.2.2.2 rfl (by decide)⟩

theorem incSteps_succ (c : Cursor) (n : Nat) :
    incSteps c (n + 1) = incSteps (c.increase).2 n := rfl

theorem incOkN_succ (c : Cursor) (n : Nat) :
    incOkN c (n + 1) = ((c.increase).1 && incOkN (c.increase).2 n) := rfl

theorem decSteps_succ (c : Cursor) (n : Nat) :
    decSteps c (n + 1) = decSteps (c.decrease).2 n := rfl

theorem decOkN_succ (c : Cursor) (n : Nat) :
    decOkN c (n + 1) = ((c.decrease).1 && decOkN (c.decrease).2 n) := rfl

theorem incLoop_ok_eq : ∀ (n : Nat) (c : Cursor), (incLoop c n).1 = incOkN c n
  | 0, _ => rfl
  | n + 1, c => by
    rw [incLoop_succ, incOkN_succ]
    cases hb : (c.increase).1 with
    | false =>
      rw [if_neg Bool.false_ne_true, Bool.false_and]
    | true =>
      rw [if_pos rfl, Bool.true_and]
      exact incLoop_ok_eq n (c.increase).2

theorem decLoop_ok_eq : ∀ (n : Nat) (c : Cursor), (decLoop c n).1 = decOkN c n
  | 0, _ => rfl
  | n + 1, c => by
    rw [decLoop_succ, decOkN_succ]
    cases hb : (c.decrease).1 with
    | false =>
      rw [if_neg Bool.false_ne_true, Bool.false_and]
    | true =>
      rw [if_pos rfl, Bool.true_and]
      exact decLoop_ok_eq n (c.decrease).2

theorem incLoop_state_eq_of_ok : ∀ (n : Nat) (c : Cursor),
    incOkN c n = true → (incLoop c n).2 = incSteps c n
  | 0, _, _ => rfl
  | n + 1, c, h => by
    rw [incOkN_succ, Bool.and_eq_true] at h
    rw [incLoop_succ, if_pos h.1]
    exact incLoop_state_eq_of_ok n (c.increase).2 h.2

theorem decLoop_state_eq_of_ok : ∀ (n : Nat) (c : Cursor),
    decOkN c n = true → (decLoop c n).2 = decSteps c n
  | 0, _, _ => rfl
  | n + 1, c, h => by
    rw [decOkN_succ, Bool.and_eq_true] at h
    rw [decLoop_succ, if_pos h.1]
    exact decLoop_state_eq_of_ok n (c.decrease).2 h.2

theorem incLoop_fail : ∀ (j n : Nat) (c : Cursor), j < n → incOkN c j = true →
    ((incSteps c j).increase).1 = false → incLoop c n = (false, incSteps c j)
  | 0, n, c, hj, _, hf => by
    cases n with
    | zero => exact absurd hj (by omega)
    | succ m =>
      have hf' : (c.increase).1 = false := hf
      rw [incLoop_succ, if_neg (by rw [hf']; exact Bool.false_ne_true),
        increase_fail_eq c hf']
      rfl
  | j + 1, n, c, hj, hok, hf => by
    cases n with
    | zero => exact absurd hj (by omega)
    | succ m =>
      rw [incOkN_succ, Bool.and_eq_true] at hok
      rw [incLoop_succ, if_pos hok.1]
      have hf' : ((incSteps (c.increase).2 j).increase).1 = false := hf
      rw [incLoop_fail j m (c.increase).2 (by omega) hok.2 hf']
      rfl

theorem decLoop_fail : ∀ (j n : Nat) (c : Cursor), j < n → decOkN c j = true →
    ((decSteps c j).decrease).1 = false → decLoop c n = (false, decSteps c j)
  | 0, n, c, hj, _, hf => by
    cases n with
    | zero => exact absurd hj (by omega)
    | succ m =>
      have hf' : (c.decrease).1 = false := hf
      rw [decLoop_succ, if_neg (by rw [hf']; exact Bool.false_ne_true),
        decrease_fail_eq c hf']
      rfl
  | j + 1, n, c, hj, hok, hf => by
    cases n with
    | zero => exact absurd hj (by omega)
    | succ m =>
      rw [decOkN_succ, Bool.and_eq_true] at hok
      rw [decLoop_succ, if_pos hok.1]
      have hf' : ((decSteps (c.decrease).2 j).decrease).1 = false := hf
      rw [decLoop_fail j m (c.decrease).2 (by omega) hok.2 hf']
      rfl

/-- C8: on every non-empty container, the strict N-step moves perform N
consecutive single-step cursor moves (`incSteps`/`decSteps` iterate the
single-step operation); if every step succeeds, the cursor ends at the N-fold
iterate and the element there is read; at the first failing step `j` the
operation aborts, returns the terminal state (`MaxOut` forward, `MinOut`
backward) immediately, and leaves the cursor exactly where the last successful
step put it. -/
theorem nth_moves_stepwise {T : Type} (s : CursorVec T) (n : Nat) (hne : s.vector ≠ []) :
    (incOkN s.cursor n = true →
      (s.move_next_nth_and_get n).2 = { s with cursor := incSteps s.cursor n } ∧
      (s.move_next_nth_and_get n).1 = readState { s with cursor := incSteps s.cursor n }) ∧
    (∀ j, j < n → incOkN s.cursor j = true → ((incSteps s.cursor j).increase).1 = false →
      (s.move_next_nth_and_get n).1 = CursorState.MaxOut ∧
      (s.move_next_nth_and_get n).2 = { s with cursor := incSteps s.cursor j }) ∧
    (decOkN s.cursor n = true →
      (s.move_prev_nth_and_get n).2 = { s with cursor := decSteps s.cursor n } ∧
      (s.move_prev_nth_and_get n).1 = readState { s with cursor := decSteps s.cursor n }) ∧
    (∀ j, j < n → decOkN s.cursor j = true → ((decSteps s.cursor j).decrease).1 = false →
      (s.move_prev_nth_and_get n).1 = CursorState.MinOut ∧
      (s.move_prev_nth_and_get n).2 = { s with cursor := decSteps s.cursor j }) := by
  have hemp : ¬(s.is_empty_container = true) := by
    show ¬(s.vector.isEmpty = true)
    simpa using hne
  have hunfN : s.move_next_nth_and_get n =
      (if ¬((incLoop s.cursor n).1 = true)
        then (CursorState.MaxOut, { s with cursor := (incLoop s.cursor n).2 })
        else (readState { s with cursor := (incLoop s.cursor n).2 },
          { s with cursor := (incLoop s.cursor n).2 })) := by
    unfold CursorVec.move_next_nth_and_get
    rw [if_neg hemp]
  have hunfP : s.move_prev_nth_and_get n =
      (if ¬((decLoop s.cursor n).1 = true)
        then (CursorState.MinOut, { s with cursor := (decLoop s.cursor n).2 })
        else (readState { s with cursor := (decLoop s.cursor n).2 },
          { s with cursor := (decLoop s.cursor n).2 })) := by
    unfold CursorVec.move_prev_nth_and_get
    rw [if_neg hemp]
  refine ⟨?_, ?_, ?_, ?_⟩
  · intro h
    have hb : (incLoop s.cursor n).1 = true := (incLoop_ok_eq n s.cursor).trans h
    have hst : (incLoop s.cursor n).2 = incSteps s.cursor n :=
      incLoop_state_eq_of_ok n s.cursor h
    rw [hunfN, if_neg (not_not_intro hb), hst]
    exact ⟨rfl, rfl⟩
  · intro j hj hok hf
    have hfail := incLoop_fail j n s.cursor hj hok hf
    rw [hunfN, hfail,
      if_pos (show ¬((false, incSteps s.cursor j).1 = true) from fun hx => Bool.noConfusion hx)]
    exact ⟨rfl, rfl⟩
  · intro h
    have hb : (decLoop s.cursor n).1 = true := (decLoop_ok_eq n s.cursor).trans h
    have hst : (decLoop s.cursor n).2 = decSteps s.cursor n :=
      decLoop_state_eq_of_ok n s.cursor h
    rw [hunfP, if_neg (not_not_intro hb), hst]
    exact ⟨rfl, rfl⟩
  · intro j hj hok hf
    have hfail := decLoop_fail j n s.cursor hj hok hf
    rw [hunfP, hfail,
      if_pos (show ¬((false, decSteps s.cursor j).1 = true) from fun hx => Bool.noConfusion hx)]
    exact ⟨rfl, rfl⟩

/-- Witness for C8 on `[1, 2, 3]` starting at index 0: two successful steps
reach `Valid 3`; a five-step request fails at the third step (j = 2) with
`MaxOut`, leaving the index where the second step put it. -/
theorem nth_moves_stepwise_witness :
    (((CursorVec.new Nat).set_container [1, 2, 3]).move_next_nth_and_get 2).1 =
      CursorState.Valid 3 ∧
    (((CursorVec.new Nat).set_container [1, 2, 3]).move_next_nth_and_get 5).1 =
      CursorState.MaxOut ∧
    (((CursorVec.new Nat).set_container [1, 2, 3]).move_next_nth_and_get 5).2.cursor.index
      = 2 := by
  have h1 := nth_moves_stepwise ((CursorVec.new Nat).set_container [1, 2, 3]) 2 (by decide)
  have h2 := nth_moves_stepwise ((CursorVec.new Nat).set_container [1, 2, 3]) 5 (by decide)
  have e1 := (h1.1 (by decide)).2
  have e2 := h2.2.1 2 (by decide) (by decide) (by decide)
  refine ⟨?_, e2.1, ?_⟩
  · rw [e1]
    decide
  · rw [e2.2]
    decide

theorem isEmpty_eq_true_iff {T : Type} (l : List T) : l.isEmpty = true ↔ l = [] := by
  cases l <;> simp

theorem not_empty_vector {T : Type} (s : CursorVec T)
    (he : ¬(s.is_empty_container = true)) : s.vector ≠ [] := by
  intro hv
  exact he ((isEmpty_eq_true_iff s.vector).mpr hv)

theorem not_is_empty {T : Type} (s : CursorVec T) (hne : s.vector ≠ []) :
    ¬(s.is_empty_container = true) := by
  intro he
  exact hne ((isEmpty_eq_true_iff s.vector).mp he)

theorem increase_index_lt (c : Cursor) (h0 : c.capacity ≠ 0) (hU : c.capacity ≤ USIZE)
    (hi : c.index < c.capacity) : ((c.increase).2).index < c.capacity := by
  obtain ⟨cap, rot, idx⟩ := c
  unfold Cursor.increase
  dsimp only at *
  rw [if_neg h0]
  by_cases h1 : idx = usizeSub cap 1
  · rw [if_pos h1]
    by_cases h2 : rot = true
    · rw [if_pos h2]
      show 0 < cap
      omega
    · rw [if_neg h2]
      show idx < cap
      omega
  · rw [if_neg h1]
    show (idx + 1) % USIZE < cap
    rw [usizeSub_one (by omega) hU] at h1
    rw [Nat.mod_eq_of_lt (by omega)]
    omega

theorem decrease_index_lt (c : Cursor) (h0 : c.capacity ≠ 0) (hU : c.capacity ≤ USIZE)
    (hi : c.index < c.capacity) : ((c.decrease).2).index < c.capacity := by
  obtain ⟨cap, rot, idx⟩ := c
  unfold Cursor.decrease
  dsimp only at *
  rw [if_neg h0]
  by_cases h1 : idx = 0
  · rw [if_pos h1]
    by_cases h2 : rot = true
    · rw [if_pos h2]
      show usizeSub cap 1 < cap
      rw [usizeSub_one (by omega) hU]
      omega
    · rw [if_neg h2]
      show idx < cap
      omega
  · rw [if_neg h1]
    show usizeSub idx 1 < cap
    rw [usizeSub_one (by omega) (by omega)]
    omega

theorem incLoop_index_lt : ∀ (n : Nat) (c : Cursor), c.capacity ≠ 0 → c.capacity ≤ USIZE →
    c.index < c.capacity → (incLoop c n).2.index < c.capacity
  | 0, _, _, _, hi => hi
  | n + 1, c, h0, hU, hi => by
    rw [incLoop_succ]
    cases hb : (c.increase).1 with
    | false =>
      rw [if_neg Bool.false_ne_true, increase_fail_eq c hb]
      exact hi
    | true =>
      rw [if_pos rfl]
      have hf := increase_frame c
      have hstep := increase_index_lt c h0 hU hi
      have := incLoop_index_lt n (c.increase).2 (by rw [hf.1]; exact h0)
        (by rw [hf.1]; exact hU) (by rw [hf.1]; exact hstep)
      rw [hf.1] at this
      exact this

theorem decLoop_index_lt : ∀ (n : Nat) (c : Cursor), c.capacity ≠ 0 → c.capacity ≤ USIZE →
    c.index < c.capacity → (decLoop c n).2.index < c.capacity
  | 0, _, _, _, hi => hi
  | n + 1, c, h0, hU, hi => by
    rw [decLoop_succ]
    cases hb : (c.decrease).1 with
    | false =>
      rw [if_neg Bool.false_ne_true, decrease_fail_eq c hb]
      exact hi
    | true =>
      rw [if_pos rfl]
      have hf := decrease_frame c
      have hstep := decrease_index_lt c h0 hU hi
      have := decLoop_index_lt n (c.decrease).2 (by rw [hf.1]; exact h0)
        (by rw [hf.1]; exact hU) (by rw [hf.1]; exact hstep)
      rw [hf.1] at this
      exact this

theorem synced_mk {T : Type} (s : CursorVec T) (c' : Cursor) (hs : Synced s)
    (hcap : c'.capacity = s.cursor.capacity)
    (hidx : s.vector ≠ [] → c'.index < s.vector.length) :
    Synced { s with cursor := c' } :=
  ⟨hcap.trans hs.1, hs.2.1, hidx⟩

theorem synced_update_cursor {T : Type} (s : CursorVec T)
    (hlen : s.vector.length < USIZE) : Synced s.update_cursor := by
  refine ⟨set_capacity_capacity _ _, hlen, fun hne => ?_⟩
  have hne2 : s.vector ≠ [] := hne
  show (s.cursor.set_capacity s.vector.length).index < s.vector.length
  exact set_capacity_index_lt s.cursor s.vector.length
    (by have := List.length_pos.mpr hne2; omega) (by omega)

theorem synced_after_increase {T : Type} (s : CursorVec T) (hs : Synced s)
    (hne : s.vector ≠ []) : Synced { s with cursor := (s.cursor.increase).2 } := by
  refine synced_mk s _ hs (increase_frame s.cursor).1 (fun _ => ?_)
  have h0 : s.cursor.capacity ≠ 0 := by
    rw [hs.1]
    have := List.length_pos.mpr hne
    omega
  have := increase_index_lt s.cursor h0 (by rw [hs.1]; exact Nat.le_of_lt hs.2.1)
    (by rw [hs.1]; exact hs.2.2 hne)
  rw [hs.1] at this
  exact this

theorem synced_after_decrease {T : Type} (s : CursorVec T) (hs : Synced s)
    (hne : s.vector ≠ []) : Synced { s with cursor := (s.cursor.decrease).2 } := by
  refine synced_mk s _ hs (decrease_frame s.cursor).1 (fun _ => ?_)
  have h0 : s.cursor.capacity ≠ 0 := by
    rw [hs.1]
    have := List.length_pos.mpr hne
    omega
  have := decrease_index_lt s.cursor h0 (by rw [hs.1]; exact Nat.le_of_lt hs.2.1)
    (by rw [hs.1]; exact hs.2.2 hne)
  rw [hs.1] at this
  exact this

theorem synced_after_incLoop {T : Type} (s : CursorVec T) (hs : Synced s)
    (hne : s.vector ≠ []) (n : Nat) : Synced { s with cursor := (incLoop s.cursor n).2 } := by
  refine synced_mk s _ hs (incLoop_frame n s.cursor).1 (fun _ => ?_)
  have h0 : s.cursor.capacity ≠ 0 := by
    rw [hs.1]
    have := List.length_pos.mpr hne
    omega
  have := incLoop_index_lt n s.cursor h0 (by rw [hs.1]; exact Nat.le_of_lt hs.2.1)
    (by rw [hs.1]; exact hs.2.2 hne)
  rw [hs.1] at this
  exact this

theorem synced_after_decLoop {T : Type} (s : CursorVec T) (hs : Synced s)
    (hne : s.vector ≠ []) (n : Nat) : Synced { s with cursor := (decLoop s.cursor n).2 } := by
  refine synced_mk s _ hs (decLoop_frame n s.cursor).1 (fun _ => ?_)
  have h0 : s.cursor.capacity ≠ 0 := by
    rw [hs.1]
    have := List.length_pos.mpr hne
    omega
  have := decLoop_index_lt n s.cursor h0 (by rw [hs.1]; exact Nat.le_of_lt hs.2.1)
    (by rw [hs.1]; exact hs.2.2 hne)
  rw [hs.1] at this
  exact this

theorem synced_move_next {T : Type} (s : CursorVec T) (hs : Synced s) :
    Synced (s.move_next).2 := by
  unfold CursorVec.move_next
  dsimp only
  split
  next he => exact hs
  next he => exact synced_after_increase s hs (not_empty_vector s he)

theorem synced_move_prev {T : Type} (s : CursorVec T) (hs : Synced s) :
    Synced (s.move_prev).2 := by
  unfold CursorVec.move_prev
  dsimp only
  split
  next he => exact hs
  next he => exact synced_after_decrease s hs (not_empty_vector s he)

theorem synced_move_next_and_get {T : Type} (s : CursorVec T) (hs : Synced s) :
    Synced (s.move_next_and_get).2 := by
  unfold CursorVec.move_next_and_get
  dsimp only
  split
  next he => exact hs
  next he =>
    split <;> exact synced_after_increase s hs (not_empty_vector s he)

theorem synced_move_prev_and_get {T : Type} (s : CursorVec T) (hs : Synced s) :
    Synced (s.move_prev_and_get).2 := by
  unfold CursorVec.move_prev_and_get
  dsimp only
  split
  next he => exact hs
  next he =>
    split <;> exact synced_after_decrease s hs (not_empty_vector s he)

theorem synced_move_next_and_get_always {T : Type} (s : CursorVec T) (hs : Synced s) :
    Synced (s.move_next_and_get_always).2 := by
  unfold CursorVec.move_next_and_get_always
  dsimp only
  split
  next he => exact hs
  next he => exact synced_after_increase s hs (not_empty_vector s he)

theorem synced_move_prev_and_get_always {T : Type} (s : CursorVec T) (hs : Synced s) :
    Synced (s.move_prev_and_get_always).2 := by
  unfold CursorVec.move_prev_and_get_always
  dsimp only
  split
  next he => exact hs
  next he => exact synced_after_decrease s hs (not_empty_vector s he)

theorem synced_move_next_nth_and_get {T : Type} (s : CursorVec T) (n : Nat) (hs : Synced s) :
    Synced (s.move_next_nth_and_get n).2 := by
  unfold CursorVec.move_next_nth_and_get
  dsimp only
  split
  next he => exact hs
  next he =>
    split <;> exact synced_after_incLoop s hs (not_empty_vector s he) n

theorem synced_move_prev_nth_and_get {T : Type} (s : CursorVec T) (n : Nat) (hs : Synced s) :
    Synced (s.move_prev_nth_and_get n).2 := by
  unfold CursorVec.move_prev_nth_and_get
  dsimp only
  split
  next he => exact hs
  next he =>
    split <;> exact synced_after_decLoop s hs (not_empty_vector s he) n

theorem synced_move_next_nth_and_get_always {T : Type} (s : CursorVec T) (n : Nat)
    (hs : Synced s) : Synced (s.move_next_nth_and_get_always n).2 := by
  unfold CursorVec.move_next_nth_and_get_always
  dsimp only
  split
  next he => exact hs
  next he => exact synced_after_incLoop s hs (not_empty_vector s he) n

theorem synced_move_prev_nth_and_get_always {T : Type} (s : CursorVec T) (n : Nat)
    (hs : Synced s) : Synced (s.move_prev_nth_and_get_always n).2 := by
  unfold CursorVec.move_prev_nth_and_get_always
  dsimp only
  split
  next he => exact hs
  next he => exact synced_after_decLoop s hs (not_empty_vector s he) n

theorem synced_set_cursor {T : Type} (s : CursorVec T) (k : Nat) (hs : Synced s)
    (hk : k ≠ s.vector.length) : Synced (s.set_cursor k).2 := by
  unfold CursorVec.set_cursor Cursor.set_value
  dsimp only
  split
  next hgt => exact hs
  next hle =>
    refine synced_mk s _ hs rfl (fun hne => ?_)
    show k < s.vector.length
    have hkc : k ≤ s.cursor.capacity := by omega
    rw [hs.1] at hkc
    omega

/-- Every state reachable through the API with `set_cursor` never called at
exactly the current vector length satisfies the synchronised-cursor invariant. -/
theorem reachable_strict_synced {T : Type} {s : CursorVec T} (h : ReachableStrictSet s) :
    Synced s := by
  unfold ReachableStrictSet at h
  induction h with
  | new =>
    refine ⟨rfl, ?_, fun hne => absurd rfl hne⟩
    show (0 : Nat) < USIZE
    rw [USIZE_eq]
    omega
  | with_container hr hlen ih => exact synced_update_cursor _ hlen
  | rotatable hr ih => exact ⟨ih.1, ih.2.1, ih.2.2⟩
  | set_rotatable hr ih => exact ⟨ih.1, ih.2.1, ih.2.2⟩
  | set_container hr hlen ih => exact synced_update_cursor _ hlen
  | modify hr hlen ih => exact synced_update_cursor _ hlen
  | update_cursor hr ih => exact synced_update_cursor _ ih.2.1
  | move_next_and_get hr ih => exact synced_move_next_and_get _ ih
  | move_next_and_get_always hr ih => exact synced_move_next_and_get_always _ ih
  | move_next_nth_and_get hr ih => exact synced_move_next_nth_and_get _ _ ih
  | move_next_nth_and_get_always hr ih => exact synced_move_next_nth_and_get_always _ _ ih
  | move_prev_and_get hr ih => exact synced_move_prev_and_get _ ih
  | move_prev_and_get_always hr ih => exact synced_move_prev_and_get_always _ ih
  | move_prev_nth_and_get hr ih => exact synced_move_prev_nth_and_get _ _ ih
  | move_prev_nth_and_get_always hr ih => exact synced_move_prev_nth_and_get_always _ _ ih
  | move_next hr ih => exact synced_move_next _ ih
  | move_prev hr ih => exact synced_move_prev _ ih
  | set_cursor hr hP ih => exact synced_set_cursor _ _ ih hP

/-- C2 (counterexample): the API state `new().with_container(vec![7])` followed
by the accepted call `set_cursor(1)` (1 ≤ capacity, by the inclusive bound) is
reachable, its vector is non-empty, and `get_cursor()` returns `Some(1)` with
`1` NOT below the vector length — refuting the claim that `get_cursor` always
returns an index `< length` on reachable non-empty states. -/
theorem get_cursor_counterexample :
    Reachable ((((CursorVec.new Nat).with_container [7]).set_cursor 1).2) ∧
    ((((CursorVec.new Nat).with_container [7]).set_cursor 1).2).vector ≠ [] ∧
    get_cursor ((((CursorVec.new Nat).with_container [7]).set_cursor 1).2) = some 1 ∧
    ¬(1 < ((((CursorVec.new Nat).with_container [7]).set_cursor 1).2).vector.length) := by
  refine ⟨?_, by decide, by decide, by decide⟩
  show ReachableVia (fun _ _ => True) _
  exact ReachableVia.set_cursor
    (ReachableVia.with_container ReachableVia.new
      (by show (1 : Nat) < USIZE; rw [USIZE_eq]; omega))
    trivial

/-- C2 (amended): on every state reachable through the container's API in which
`set_cursor` is never invoked with an argument equal to the current vector
length, `get_cursor()` returns `Some(index)` with `index < length` when the
vector is non-empty, and returns `None` when it is empty. -/
theorem get_cursor_some_lt_length {T : Type} (s : CursorVec T) (h : ReachableStrictSet s) :
    (s.vector = [] → get_cursor s = none) ∧
    (s.vector ≠ [] → get_cursor s = some s.cursor.index ∧
      s.cursor.index < s.vector.length) := by
  have hs := reachable_strict_synced h
  constructor
  · intro hv
    unfold CursorVec.get_cursor
    rw [if_pos ((isEmpty_eq_true_iff s.vector).mpr hv)]
  · intro hne
    refine ⟨?_, hs.2.2 hne⟩
    unfold CursorVec.get_cursor
    rw [if_neg (fun he => hne ((isEmpty_eq_true_iff s.vector).mp he))]
    rfl

/-- Witness for the amended C2 on the reachable state `new().set_container([5])`. -/
theorem get_cursor_some_lt_length_witness :
    get_cursor ((CursorVec.new Nat).set_container [5]) = some 0 ∧
    (0 : Nat) < ((CursorVec.new Nat).set_container [5]).vector.length := by
  have h := get_cursor_some_lt_length ((CursorVec.new Nat).set_container [5])
    (ReachableVia.set_container ReachableVia.new
      (by show (1 : Nat) < USIZE; rw [USIZE_eq]; omega))
  have h2 := h.2 (by decide)
  exact ⟨h2.1, h2.2⟩

theorem always_next_none {T : Type} (s : CursorVec T) (hv : s.vector = []) :
    (s.move_next_and_get_always).1 = none := by
  have he : s.is_empty_container = true := (isEmpty_eq_true_iff s.vector).mpr hv
  unfold CursorVec.move_next_and_get_always
  rw [if_pos he]

theorem always_prev_none {T : Type} (s : CursorVec T) (hv : s.vector = []) :
    (s.move_prev_and_get_always).1 = none := by
  have he : s.is_empty_container = true := (isEmpty_eq_true_iff s.vector).mpr hv
  unfold CursorVec.move_prev_and_get_always
  rw [if_pos he]

theorem always_next_nth_none {T : Type} (s : CursorVec T) (n : Nat) (hv : s.vector = []) :
    (s.move_next_nth_and_get_always n).1 = none := by
  have he : s.is_empty_container = true := (isEmpty_eq_true_iff s.vector).mpr hv
  unfold CursorVec.move_next_nth_and_get_always
  rw [if_pos he]

theorem always_prev_nth_none {T : Type} (s : CursorVec T) (n : Nat) (hv : s.vector = []) :
    (s.move_prev_nth_and_get_always n).1 = none := by
  have he : s.is_empty_container = true := (isEmpty_eq_true_iff s.vector).mpr hv
  unfold CursorVec.move_prev_nth_and_get_always
  rw [if_pos he]

theorem always_next_value {T : Type} (s : CursorVec T) (hs : Synced s) (hne : s.vector ≠ []) :
    (s.move_next_and_get_always).1.isSome = true ∧
    (s.move_next_and_get_always).1 = get_cursor_value (s.move_next_and_get_always).2 := by
  have hunf : s.move_next_and_get_always =
      (get_cursor_value { s with cursor := (s.cursor.increase).2 },
        { s with cursor := (s.cursor.increase).2 }) := by
    unfold CursorVec.move_next_and_get_always
    rw [if_neg (not_is_empty s hne)]
  have hidx : (s.cursor.increase).2.index < s.vector.length :=
    (synced_after_increase s hs hne).2.2 hne
  have hv : get_cursor_value { s with cursor := (s.cursor.increase).2 } =
      some (s.vector.get ⟨(s.cursor.increase).2.index, hidx⟩) := by
    show s.vector[(s.cursor.increase).2.index]? = _
    rw [List.getElem?_eq_getElem hidx, List.get_eq_getElem]
  rw [hunf]
  exact ⟨by rw [show ((get_cursor_value { s with cursor := (s.cursor.increase).2 },
    { s with cursor := (s.cursor.increase).2 })).1 =
      get_cursor_value { s with cursor := (s.cursor.increase).2 } from rfl, hv]; rfl, rfl⟩

theorem always_prev_value {T : Type} (s : CursorVec T) (hs : Synced s) (hne : s.vector ≠ []) :
    (s.move_prev_and_get_always).1.isSome = true ∧
    (s.move_prev_and_get_always).1 = get_cursor_value (s.move_prev_and_get_always).2 := by
  have hunf : s.move_prev_and_get_always =
      (get_cursor_value { s with cursor := (s.cursor.decrease).2 },
        { s with cursor := (s.cursor.decrease).2 }) := by
    unfold CursorVec.move_prev_and_get_always
    rw [if_neg (not_is_empty s hne)]
  have hidx : (s.cursor.decrease).2.index < s.vector.length :=
    (synced_after_decrease s hs hne).2.2 hne
  have hv : get_cursor_value { s with cursor := (s.cursor.decrease).2 } =
      some (s.vector.get ⟨(s.cursor.decrease).2.index, hidx⟩) := by
    show s.vector[(s.cursor.decrease).2.index]? = _
    rw [List.getElem?_eq_getElem hidx, List.get_eq_getElem]
  rw [hunf]
  exact ⟨by rw [show ((get_cursor_value { s with cursor := (s.cursor.decrease).2 },
    { s with cursor := (s.cursor.decrease).2 })).1 =
      get_cursor_value { s with cursor := (s.cursor.decrease).2 } from rfl, hv]; rfl, rfl⟩

theorem always_next_nth_value {T : Type} (s : CursorVec T) (n : Nat) (hs : Synced s)
    (hne : s.vector ≠ []) :
    (s.move_next_nth_and_get_always n).1.isSome = true ∧
    (s.move_next_nth_and_get_always n).1 =
      get_cursor_value (s.move_next_nth_and_get_always n).2 := by
  have hunf : s.move_next_nth_and_get_always n =
      (get_cursor_value { s with cursor := (incLoop s.cursor n).2 },
        { s with cursor := (incLoop s.cursor n).2 }) := by
    unfold CursorVec.move_next_nth_and_get_always
    rw [if_neg (not_is_empty s hne)]
  have hidx : (incLoop s.cursor n).2.index < s.vector.length :=
    (synced_after_incLoop s hs hne n).2.2 hne
  have hv : get_cursor_value { s with cursor := (incLoop s.cursor n).2 } =
      some (s.vector.get ⟨(incLoop s.cursor n).2.index, hidx⟩) := by
    show s.vector[(incLoop s.cursor n).2.index]? = _
    rw [List.getElem?_eq_getElem hidx, List.get_eq_getElem]
  rw [hunf]
  exact ⟨by rw [show ((get_cursor_value { s with cursor := (incLoop s.cursor n).2 },
    { s with cursor := (incLoop s.cursor n).2 })).1 =
      get_cursor_value { s with cursor := (incLoop s.cursor n).2 } from rfl, hv]; rfl, rfl⟩

theorem always_prev_nth_value {T : Type} (s : CursorVec T) (n : Nat) (hs : Synced s)
    (hne : s.vector ≠ []) :
    (s.move_prev_nth_and_get_always n).1.isSome = true ∧
    (s.move_prev_nth_and_get_always n).1 =
      get_cursor_value (s.move_prev_nth_and_get_always n).2 := by
  have hunf : s.move_prev_nth_and_get_always n =
      (get_cursor_value { s with cursor := (decLoop s.cursor n).2 },
        { s with cursor := (decLoop s.cursor n).2 }) := by
    unfold CursorVec.move_prev_nth_and_get_always
    rw [if_neg (not_is_empty s hne)]
  have hidx : (decLoop s.cursor n).2.index < s.vector.length :=
    (synced_after_decLoop s hs hne n).2.2 hne
  have hv : get_cursor_value { s with cursor := (decLoop s.cursor n).2 } =
      some (s.vector.get ⟨(decLoop s.cursor n).2.index, hidx⟩) := by
    show s.vector[(decLoop s.cursor n).2.index]? = _
    rw [List.getElem?_eq_getElem hidx, List.get_eq_getElem]
  rw [hunf]
  exact ⟨by rw [show ((get_cursor_value { s with cursor := (decLoop s.cursor n).2 },
    { s with cursor := (decLoop s.cursor n).2 })).1 =
      get_cursor_value { s with cursor := (decLoop s.cursor n).2 } from rfl, hv]; rfl, rfl⟩

/-- C7 (counterexample): on the reachable state `new().with_container(vec![10])`
followed by the accepted boundary call `set_cursor(1)`, the vector is NOT empty
yet `move_next_and_get_always` returns no value — refuting the claim that the
always variants return `None` only on empty sequences. -/
theorem always_get_counterexample :
    (CursorVec.move_next_and_get_always
      ((((CursorVec.new Nat).with_container [10]).set_cursor 1).2)).1 = none ∧
    ((((CursorVec.new Nat).with_container [10]).set_cursor 1).2).vector ≠ [] := by
  exact ⟨by decide, by decide⟩

/-- C7 (amended): on every state satisfying the synchronised-cursor invariant
(capacity = length, index in bounds on non-empty vectors), the single-step and
N-step always move operations return `None` exactly when the vector is empty;
on a non-empty vector they return `Some` of the element currently sitting at
the cursor's resulting index. -/
theorem always_moves_value_spec {T : Type} (s : CursorVec T) (n : Nat) (hs : Synced s) :
    (s.vector = [] →
      (s.move_next_and_get_always).1 = none ∧
      (s.move_prev_and_get_always).1 = none ∧
      (s.move_next_nth_and_get_always n).1 = none ∧
      (s.move_prev_nth_and_get_always n).1 = none) ∧
    (s.vector ≠ [] →
      ((s.move_next_and_get_always).1.isSome = true ∧
        (s.move_next_and_get_always).1 =
          get_cursor_value (s.move_next_and_get_always).2) ∧
      ((s.move_prev_and_get_always).1.isSome = true ∧
        (s.move_prev_and_get_always).1 =
          get_cursor_value (s.move_prev_and_get_always).2) ∧
      ((s.move_next_nth_and_get_always n).1.isSome = true ∧
        (s.move_next_nth_and_get_always n).1 =
          get_cursor_value (s.move_next_nth_and_get_always n).2) ∧
      ((s.move_prev_nth_and_get_always n).1.isSome = true ∧
        (s.move_prev_nth_and_get_always n).1 =
          get_cursor_value (s.move_prev_nth_and_get_always n).2)) :=
  ⟨fun hv => ⟨always_next_none s hv, always_prev_none s hv,
    always_next_nth_none s n hv, always_prev_nth_none s n hv⟩,
   fun hne => ⟨always_next_value s hs hne, always_prev_value s hs hne,
    always_next_nth_value s n hs hne, always_prev_nth_value s n hs hne⟩⟩

/-- Witness for the amended C7 on the synchronised state `new().set_container([1, 2])`. -/
theorem always_moves_value_spec_witness :
    (CursorVec.move_next_and_get_always
      ((CursorVec.new Nat).set_container [1, 2])).1.isSome = true := by
  have h := always_moves_value_spec ((CursorVec.new Nat).set_container [1, 2]) 0
    ⟨rfl, by show (2 : Nat) < USIZE; rw [USIZE_eq]; omega, fun _ => by decide⟩
  exact (h.2 (by decide)).1.1

end Cursorvec
